import Mathlib

/-!
Shallow embedding of the gmn-gui conversation core (Go) in Lean 4,
with theorems settling the frozen claims about its specification.

The embedded functions mirror, construct for construct, the Go sources:
  - internal/api/client.go   (generation transport: retry loop, SSE decoding)
  - service/chat.go          (conversation engine: turn loop, plan mode,
                              ask-user rendezvous, message sending)
  - service/mcp_manager.go   (tool router: name sanitization, dispatch)
  - service/builtin_tools.go (built-in registry and plan-mode allow-list)

External effects (HTTP requests, JSON (un)marshalling of opaque bodies,
Go's time.ParseDuration, the file system, actual tool execution) are
modelled as explicit function parameters ("oracles"), so every embedded
definition is a computable Lean function of its inputs.
-/

namespace GmnGui

/-- A function call carried in a Part (api.FunctionCall: name + argument map).
The `args` map (Go `map[string]interface{}`) is modelled as an association
list of keys to opaque string-rendered values; no claim inspects values. -/
structure FunctionCall where
  name : String
  args : List (String × String)
deriving Repr, DecidableEq

/-- api.FunctionResp: a tool response Part payload (name + response map). -/
structure FunctionResp where
  name : String
  response : List (String × String)
deriving Repr, DecidableEq

/-- api.InlineData: inline file data (mime type + base64 payload). -/
structure InlineData where
  mimeType : String
  data : String
deriving Repr, DecidableEq

/-- api.Part: a content part.  Mirrors the Go struct field for field;
unset pointer fields are `none`, unset strings are `""`. -/
structure Part where
  text : String := ""
  thought : Bool := false
  thoughtSignature : String := ""
  functionCall : Option FunctionCall := none
  functionResp : Option FunctionResp := none
  inlineData : Option InlineData := none
deriving Repr, DecidableEq

/-- api.Content: a turn with a role and ordered parts. -/
structure Content where
  role : String
  parts : List Part
deriving Repr, DecidableEq

/-- api.FunctionDecl: an exported tool declaration.  `parameters` is the
raw JSON schema, opaque here. -/
structure FunctionDecl where
  name : String
  description : String
  parameters : String
deriving Repr, DecidableEq

/-- One entry of an MCP client's cached tool catalog (mcp.Tool as held in
mcp.Client.Tools: name, description, raw input schema). -/
structure MCPTool where
  name : String
  description : String
  inputSchema : String
deriving Repr, DecidableEq

/-! ## Tool router: name sanitization and MCP dispatch (service/mcp_manager.go) -/

/-- The per-rune step of sanitizeToolName: runes outside [A-Za-z0-9_]
become underscores. -/
def sanitizeRune (r : Char) : Char :=
  if ('a' ≤ r ∧ r ≤ 'z') ∨ ('A' ≤ r ∧ r ≤ 'Z') ∨ ('0' ≤ r ∧ r ≤ '9') ∨ r = '_' then r
  else '_'

/-- sanitizeToolName replaces characters not allowed in Gemini API function
names with underscores (iterating over the string's runes). -/
def sanitizeToolName (name : String) : String :=
  ⟨name.data.map sanitizeRune⟩

/-- MCPManager.GetAllTools: tools from all connected servers as function
declarations, each renamed to sanitize(server) ++ "__" ++ sanitize(tool).
The connected-clients map is modelled as an ordered list of
(server name, cached tool catalog); `sanitizeSchema` stands for the
JSON-dependent sanitizeSchemaRaw scrub, opaque here. -/
def GetAllTools (sanitizeSchema : String → String)
    (clients : List (String × List MCPTool)) : List FunctionDecl :=
  clients.foldl
    (fun acc sc =>
      acc ++ sc.2.map (fun t =>
        { name := sanitizeToolName sc.1 ++ "__" ++ sanitizeToolName t.name
          description := t.description
          parameters := sanitizeSchema t.inputSchema }))
    []

/-- Byte-for-byte strings.HasPrefix, on the rune lists. -/
def strStarts (s p : String) : Bool :=
  p.data.isPrefixOf s.data

/-- The inner loop of MCPManager.CallTool: find the catalog entry whose
sanitized name equals the remainder of the exported name. -/
def findToolIn (tools : List MCPTool) (remainder : String) : Option String :=
  match tools with
  | [] => none
  | t :: rest =>
    if sanitizeToolName t.name == remainder then some t.name
    else findToolIn rest remainder

/-- The server/tool resolution of MCPManager.CallTool: scan connected
clients for a sanitized-server-name prefix match and, within that catalog,
the entry whose sanitized name matches the remainder.  Returns the matched
(server name, original tool name) that the call is dispatched to, or `none`
(the "MCP tool not found" error). -/
def CallToolRoute : List (String × List MCPTool) → String → Option (String × String)
  | [], _ => none
  | (serverName, tools) :: rest, toolName =>
    let pfx := sanitizeToolName serverName ++ "__"
    if strStarts toolName pfx then
      match findToolIn tools ⟨toolName.data.drop pfx.data.length⟩ with
      | some actual => some (serverName, actual)
      | none => CallToolRoute rest toolName
    else CallToolRoute rest toolName

/-! ## Built-in registry and plan-mode allow-list (service/builtin_tools.go) -/

/-- The keys of the builtinToolNames map. -/
def builtinToolNameList : List String :=
  ["run_shell_command", "read_file", "read_many_files", "write_file",
   "replace", "list_directory", "glob", "grep_search", "google_web_search",
   "web_fetch", "write_todos", "save_memory", "ask_user", "activate_skill",
   "get_internal_docs"]

/-- IsBuiltinTool: membership in the built-in registry (map lookup with
false default). -/
def IsBuiltinTool (name : String) : Bool :=
  builtinToolNameList.contains name

/-- The keys of the planModeTools map (read-only allow-list). -/
def planModeToolNameList : List String :=
  ["glob", "grep_search", "read_file", "read_many_files", "list_directory",
   "google_web_search", "web_fetch", "ask_user", "get_internal_docs"]

/-- IsPlanModeTool: membership in the plan-mode allow-list (map lookup with
false default). -/
def IsPlanModeTool (name : String) : Bool :=
  planModeToolNameList.contains name

/-- Whether a rune list contains two adjacent underscores (every exported
MCP tool name does, by construction of the "__" separator). -/
def hasDoubleUnder : List Char → Bool
  | a :: b :: rest => (a == '_' && b == '_') || hasDoubleUnder (b :: rest)
  | _ => false

/-! ## Conversation engine state (service/chat.go) -/

/-- A UI display message (ChatMessage).  The ID and timestamp fields are
environment-derived (time.Now) and carry no logical content; they are
omitted from the embedding. -/
structure ChatMessage where
  role : String
  content : String
  toolName : String := ""
  toolArgs : String := ""
deriving Repr, DecidableEq

/-- The mutable conversation state of a ChatService: UI messages, API
history, per-session model and working directory, plan-mode flag, and the
ask-user rendezvous channel.  The channel field (`askUserCh chan string`,
capacity 1) is modelled as `none` when nil and `some buf` when a channel
holding the buffered strings `buf` is installed. -/
structure ChatState where
  messages : List ChatMessage := []
  history : List Content := []
  model : String := ""
  workDir : String := ""
  planMode : Bool := false
  askUserCh : Option (List String) := none
deriving Repr, DecidableEq

/-- The plan-mode activation notice SetPlanMode injects into History. -/
def planModeOnNotice : Content :=
  { role := "user"
    parts := [{ text := "[SYSTEM: Plan Mode has been ACTIVATED. From now on, only use read-only tools. Do NOT modify any files. Explain your plan instead of executing changes.]" }] }

/-- The plan-mode deactivation notice SetPlanMode injects into History. -/
def planModeOffNotice : Content :=
  { role := "user"
    parts := [{ text := "[SYSTEM: Plan Mode has been DEACTIVATED. All tools are now available. You may freely use write_file, replace, run_shell_command, and any other tools to make changes as requested.]" }] }

/-- ChatService.SetPlanMode: store the flag and, when History is non-empty
and the flag actually changed, append the matching notice Content. -/
def SetPlanMode (c : ChatState) (enabled : Bool) : ChatState :=
  let prev := c.planMode
  let history2 :=
    if c.history.length > 0 then
      if enabled ∧ prev = false then c.history ++ [planModeOnNotice]
      else if enabled = false ∧ prev then c.history ++ [planModeOffNotice]
      else c.history
    else c.history
  { c with planMode := enabled, history := history2 }

/-- ChatService.SubmitAskUserResponse: read the channel field under the
lock; when nil do nothing, otherwise send the answer into the channel. -/
def SubmitAskUserResponse (c : ChatState) (answer : String) : ChatState :=
  match c.askUserCh with
  | none => c
  | some buf => { c with askUserCh := some (buf ++ [answer]) }

/-- The first step of ChatService.AskUser: install a fresh rendezvous
channel (`c.askUserCh = make(chan string, 1)`). -/
def askUserBegin (c : ChatState) : ChatState :=
  { c with askUserCh := some [] }

/-- The waiting AskUser call's receive on the rendezvous channel, combined
with its deferred teardown (`c.askUserCh = nil`): when an answer is
buffered, the waiter resumes with it and the channel field is cleared;
otherwise the waiter remains blocked (`none`). -/
def askUserRecv (c : ChatState) : Option (String × ChatState) :=
  match c.askUserCh with
  | some (a :: _) => some (a, { c with askUserCh := none })
  | _ => none

/-- An attachment passed to SendMessageWithFiles (path + mime type). -/
structure AttachedFile where
  path : String
  mimeType : String
deriving Repr, DecidableEq

/-- The observable outcome of SendMessageWithFiles: the state afterwards,
the returned error (if any), and whether the streaming turn-loop goroutine
was started. -/
structure SendOutcome where
  state : ChatState
  err : Option String
  started : Bool
deriving Repr, DecidableEq

/-- The attachment-reading loop of SendMessageWithFiles: read each file
through the file-system oracle `fs` (standing for readFileAsBase64) and
turn it into an inline-data Part; the first failure aborts with the
wrapped error. -/
def readFileParts (fs : String → Except String String) :
    List AttachedFile → Except String (List Part)
  | [] => .ok []
  | f :: rest =>
    match fs f.path with
    | .error e => .error ("failed to read file " ++ f.path ++ ": " ++ e)
    | .ok fileData =>
      match readFileParts fs rest with
      | .error e => .error e
      | .ok ps => .ok ({ inlineData := some ⟨f.mimeType, fileData⟩ } :: ps)

/-- ChatService.SendMessageWithFiles: build the text part, read and encode
every attachment (returning early on the first failure), then append the
user ChatMessage and the user Content and start the streaming goroutine. -/
def SendMessageWithFiles (fs : String → Except String String) (c : ChatState)
    (text : String) (files : List AttachedFile) : SendOutcome :=
  let textParts : List Part := if text ≠ "" then [{ text := text }] else []
  match readFileParts fs files with
  | .error e => ⟨c, some e, false⟩
  | .ok fileParts =>
    let displayContent :=
      text ++ (if files.length > 0
               then " [" ++ toString files.length ++ " file(s) attached]"
               else "")
    ⟨{ c with
        messages := c.messages ++ [{ role := "user", content := displayContent }],
        history := c.history ++ [{ role := "user", parts := textParts ++ fileParts }] },
      none, true⟩

/-! ## Stream accumulation and the turn loop (service/chat.go doStream) -/

/-- api.UsageMetadata: token usage totals. -/
structure UsageMetadata where
  promptTokenCount : Nat := 0
  candidatesTokenCount : Nat := 0
  totalTokenCount : Nat := 0
deriving Repr, DecidableEq

/-- api.StreamEvent: one event of the normalized stream. -/
structure StreamEvent where
  type : String
  model : String := ""
  text : String := ""
  thought : Bool := false
  toolCall : Option FunctionCall := none
  thoughtSignature : String := ""
  usage : Option UsageMetadata := none
  error : String := ""
deriving Repr, DecidableEq

/-- The loop state of doStream's `for event := range events` loop.  The Go
code returns from doStream on an `error` event; `errored = true` freezes
the accumulator to model that the remaining events are never processed and
no history append happens. -/
structure StreamAccum where
  fullText : String := ""
  thoughtText : String := ""
  pendingToolParts : List Part := []
  errored : Bool := false
deriving Repr, DecidableEq

/-- One iteration of doStream's event switch. -/
def stepStream (acc : StreamAccum) (e : StreamEvent) : StreamAccum :=
  if acc.errored then acc
  else if e.type = "thought" then { acc with thoughtText := acc.thoughtText ++ e.text }
  else if e.type = "content" then { acc with fullText := acc.fullText ++ e.text }
  else if e.type = "tool_call" then
    { acc with pendingToolParts := acc.pendingToolParts ++
        [{ functionCall := e.toolCall, thoughtSignature := e.thoughtSignature }] }
  else if e.type = "error" then { acc with errored := true }
  else acc

/-- doStream's accumulation over the whole event sequence. -/
def accumStream (events : List StreamEvent) : StreamAccum :=
  events.foldl stepStream {}

/-- The model Parts doStream assembles after the stream ends: accumulated
thought (if any), accumulated text (if any), then the pending tool-call
parts in arrival order. -/
def buildModelParts (acc : StreamAccum) : List Part :=
  (if acc.thoughtText ≠ "" then [{ thought := true, text := acc.thoughtText }] else [])
  ++ (if acc.fullText ≠ "" then [{ text := acc.fullText }] else [])
  ++ acc.pendingToolParts

/-- The History/messages update at the end of doStream's event loop: on an
`error` event nothing is appended (early return); otherwise the UI model
message is appended when text was accumulated and the model-role Content is
appended when it has at least one Part. -/
def finishStream (c : ChatState) (events : List StreamEvent) : ChatState :=
  let acc := accumStream events
  if acc.errored then c
  else
    let c1 :=
      if acc.fullText ≠ ""
      then { c with messages := c.messages ++ [{ role := "model", content := acc.fullText }] }
      else c
    let mp := buildModelParts acc
    if mp ≠ [] then { c1 with history := c1.history ++ [{ role := "model", parts := mp }] }
    else c1

/-! ## Tool execution (service/chat.go handleToolCalls) -/

/-- The effectful collaborators of handleToolCalls, modelled as oracles:
ask-user execution, built-in execution, MCP dispatch, and json.Marshal of
an argument map (for the UI message). -/
structure ToolEnv where
  execAskUser : List (String × String) → Except String String
  execBuiltin : String → List (String × String) → Except String String
  mcpCall : String → List (String × String) → Except String String
  marshalArgs : List (String × String) → String

/-- Go `%q` quoting of a tool name (exact for names without characters
that need escaping, which covers all declared tool names). -/
def goQuote (s : String) : String := "\"" ++ s ++ "\""

/-- The plan-mode rejection string handleToolCalls records for a blocked
tool call. -/
def planModeBlockMsg (name : String) : String :=
  "Error: tool " ++ goQuote name ++ " is not allowed in Plan Mode. Only read-only tools are available."

/-- The per-call result computation inside handleToolCalls: plan-mode
guard first, then ask_user, then the built-in registry, then MCP dispatch;
a returned Go error is rendered as "Error: ...". -/
def toolResult (planMode : Bool) (env : ToolEnv) (tc : FunctionCall) : String :=
  let r : Except String String :=
    if planMode ∧ IsPlanModeTool tc.name = false then .ok (planModeBlockMsg tc.name)
    else if tc.name = "ask_user" then env.execAskUser tc.args
    else if IsBuiltinTool tc.name then env.execBuiltin tc.name tc.args
    else env.mcpCall tc.name tc.args
  match r with
  | .ok s => s
  | .error e => "Error: " ++ e

/-- The function-response Part handleToolCalls builds for one executed
call: `{"result": result}` under the call's name. -/
def toolRespPart (planMode : Bool) (env : ToolEnv) (tc : FunctionCall) : Part :=
  { functionResp := some { name := tc.name, response := [("result", toolResult planMode env tc)] } }

/-- The loop of handleToolCalls, projected to the function-response Parts
it accumulates: one per part that carries a FunctionCall (a part with a
nil FunctionCall is skipped by `continue`). -/
def buildToolResponses (planMode : Bool) (env : ToolEnv) : List Part → List Part
  | [] => []
  | p :: rest =>
    match p.functionCall with
    | none => buildToolResponses planMode env rest
    | some tc => toolRespPart planMode env tc :: buildToolResponses planMode env rest

/-- The loop of handleToolCalls, projected to the UI messages it appends:
a tool_call message and a tool_result message per executed call. -/
def toolCallMessages (planMode : Bool) (env : ToolEnv) : List Part → List ChatMessage
  | [] => []
  | p :: rest =>
    match p.functionCall with
    | none => toolCallMessages planMode env rest
    | some tc =>
      { role := "tool_call", content := tc.name, toolName := tc.name,
        toolArgs := env.marshalArgs tc.args }
      :: { role := "tool_result", content := toolResult planMode env tc, toolName := tc.name }
      :: toolCallMessages planMode env rest

/-- ChatService.handleToolCalls up to (and including) appending the
function-response Content to History; the recursive doStream call that
issues the next generation request operates on the returned state.  The
plan-mode flag is read from the state (GetPlanMode). -/
def handleToolCalls (env : ToolEnv) (c : ChatState) (toolCallParts : List Part) : ChatState :=
  { c with
      messages := c.messages ++ toolCallMessages c.planMode env toolCallParts,
      history := c.history ++
        [{ role := "user", parts := buildToolResponses c.planMode env toolCallParts }] }

/-! ## Generation transport retry loop (internal/api/client.go) -/

/-- An HTTP response as the retry loop sees it (status + fully-read body). -/
structure HttpResp where
  status : Nat
  body : String
deriving Repr, DecidableEq

/-- The maxRetries constant. -/
def maxRetries : Nat := 3

/-- time.Second in nanoseconds, the default retry wait. -/
def secondNs : Nat := 1000000000

/-- One detail entry of the structured 429 error body. -/
structure RetryDetail where
  type : String
  retryDelay : String
deriving Repr, DecidableEq

/-- The decoded 429 error envelope (error.details). -/
structure ErrBody where
  details : List RetryDetail
deriving Repr, DecidableEq

/-- Byte-for-byte strings.HasSuffix, on the rune lists. -/
def strEnds (s p : String) : Bool :=
  p.data.isSuffixOf s.data

/-- The detail scan of parseRetryDelay: first RetryInfo detail with a
non-empty, parsable retryDelay wins; otherwise one second. -/
def findRetryDelay (parseDur : String → Option Nat) : List RetryDetail → Nat
  | [] => secondNs
  | d :: rest =>
    if strEnds d.type "RetryInfo" ∧ d.retryDelay ≠ "" then
      match parseDur d.retryDelay with
      | some dur => dur
      | none => findRetryDelay parseDur rest
    else findRetryDelay parseDur rest

/-- parseRetryDelay: extract the RetryInfo retryDelay (in nanoseconds)
from a 429 body, defaulting to one second when the body does not decode or
no usable detail exists.  `unmarshal` stands for json.Unmarshal into the
error envelope; `parseDur` for time.ParseDuration. -/
def parseRetryDelay (unmarshal : String → Option ErrBody) (parseDur : String → Option Nat)
    (body : String) : Nat :=
  match unmarshal body with
  | none => secondNs
  | some er => findRetryDelay parseDur er.details

/-- The observable outcome of a Generate call: the result, the number of
HTTP requests issued, and the backoff waits performed (nanoseconds). -/
structure GenOutcome (R : Type) where
  result : Except String R
  attempts : Nat
  waits : List Nat

/-- Client.Generate's `for attempt := 0; attempt <= maxRetries; attempt++`
loop.  `doReq` stands for the HTTP round trip of attempt i (a Go transport
error becomes `.error`); `decode` for json.Decode of the 200 body.  The
fuel argument counts the remaining loop iterations (maxRetries + 1 -
attempt at entry), so the fuel-0 case is the `return nil, fmt.Errorf("max
retries exceeded")` after the loop. -/
def generateLoop (doReq : Nat → Except String HttpResp) (decode : String → Except String R)
    (unmarshal : String → Option ErrBody) (parseDur : String → Option Nat) :
    Nat → Nat → List Nat → GenOutcome R
  | attempt, 0, waits => ⟨.error "max retries exceeded", attempt, waits⟩
  | attempt, fuel + 1, waits =>
    match doReq attempt with
    | .error e => ⟨.error ("failed to send request: " ++ e), attempt + 1, waits⟩
    | .ok resp =>
      if resp.status = 429 ∧ attempt < maxRetries then
        generateLoop doReq decode unmarshal parseDur (attempt + 1) fuel
          (waits ++ [parseRetryDelay unmarshal parseDur resp.body])
      else if resp.status ≠ 200 then
        ⟨.error ("API error (status " ++ toString resp.status ++ "): " ++ resp.body),
          attempt + 1, waits⟩
      else
        match decode resp.body with
        | .error e => ⟨.error ("failed to decode response: " ++ e), attempt + 1, waits⟩
        | .ok r => ⟨.ok r, attempt + 1, waits⟩

/-- Client.Generate from its entry point. -/
def Generate (doReq : Nat → Except String HttpResp) (decode : String → Except String R)
    (unmarshal : String → Option ErrBody) (parseDur : String → Option Nat) : GenOutcome R :=
  generateLoop doReq decode unmarshal parseDur 0 (maxRetries + 1) []

/-- The pre-stream retry loop of Client.GenerateStream: identical to
Generate's loop, but a 200 breaks out with the open response.  Its loop
body always returns or breaks on the final iteration, so the fuel-0 case
is unreachable from the entry point (Go would fall through with the last
response; no error string exists for it in the source). -/
def streamOpenLoop (doReq : Nat → Except String HttpResp)
    (unmarshal : String → Option ErrBody) (parseDur : String → Option Nat) :
    Nat → Nat → List Nat → GenOutcome HttpResp
  | attempt, 0, waits => ⟨.error "unreachable", attempt, waits⟩
  | attempt, fuel + 1, waits =>
    match doReq attempt with
    | .error e => ⟨.error ("failed to send request: " ++ e), attempt + 1, waits⟩
    | .ok resp =>
      if resp.status = 429 ∧ attempt < maxRetries then
        streamOpenLoop doReq unmarshal parseDur (attempt + 1) fuel
          (waits ++ [parseRetryDelay unmarshal parseDur resp.body])
      else if resp.status ≠ 200 then
        ⟨.error ("API error (status " ++ toString resp.status ++ "): " ++ resp.body),
          attempt + 1, waits⟩
      else
        ⟨.ok resp, attempt + 1, waits⟩

/-- Client.GenerateStream's opening phase from its entry point. -/
def GenerateStreamOpen (doReq : Nat → Except String HttpResp)
    (unmarshal : String → Option ErrBody) (parseDur : String → Option Nat) : GenOutcome HttpResp :=
  streamOpenLoop doReq unmarshal parseDur 0 (maxRetries + 1) []

/-! ## SSE decoding goroutine (internal/api/client.go GenerateStream) -/

/-- api.Candidate: one response candidate. -/
structure Candidate where
  content : Content
  finishReason : String := ""
deriving Repr, DecidableEq

/-- api.InnerResponse: candidates + usage. -/
structure InnerResponse where
  candidates : List Candidate := []
  usageMetadata : UsageMetadata := {}
deriving Repr, DecidableEq

/-- api.GenerateResponse: the envelope each `data:` record decodes into. -/
structure GenerateResponse where
  response : InnerResponse := {}
deriving Repr, DecidableEq

/-- How the body reader ends: end of stream (io.EOF) or a read error.  A
partial unterminated final line is discarded by the Go code in both
cases, so lines are the complete lines read. -/
inductive ReadEnd
  | eof
  | readErr (msg : String)
deriving Repr, DecidableEq

/-- Go strings.TrimSpace on the rune list. -/
def goTrim (s : String) : String :=
  ⟨((s.data.dropWhile Char.isWhitespace).reverse.dropWhile Char.isWhitespace).reverse⟩

/-- The events one decoded chunk produces: per candidate, per part, a
thought or content event for non-empty text and a tool_call event for a
function call (carrying the part's thought signature). -/
def chunkEvents (chunk : GenerateResponse) : List StreamEvent :=
  chunk.response.candidates.foldl
    (fun acc cand =>
      acc ++ cand.content.parts.foldl
        (fun acc2 part =>
          acc2
          ++ (if part.text ≠ "" then
                if part.thought then [{ type := "thought", text := part.text, thought := true }]
                else [{ type := "content", text := part.text }]
              else [])
          ++ (match part.functionCall with
              | some fc => [{ type := "tool_call", toolCall := some fc,
                              thoughtSignature := part.thoughtSignature }]
              | none => []))
        [])
    []

/-- The line loop of GenerateStream's decoding goroutine: skip blank and
non-`data:` lines, stop at `data: [DONE]`, skip undecodable records,
track the last usage with a positive total, and report a read error as an
`error` event.  Returns the events between `start` and `done`, plus the
usage for the `done` event. -/
def streamLoop (unmarshal : String → Option GenerateResponse) :
    List String → ReadEnd → Option UsageMetadata → List StreamEvent × Option UsageMetadata
  | [], .eof, u => ([], u)
  | [], .readErr m, u => ([{ type := "error", error := m }], u)
  | l :: rest, fin, u =>
    let line := goTrim l
    if line = "" ∨ strStarts line "data: " = false then streamLoop unmarshal rest fin u
    else
      let record : String := ⟨line.data.drop ("data: " : String).data.length⟩
      if record = "[DONE]" then ([], u)
      else
        match unmarshal record with
        | none => streamLoop unmarshal rest fin u
        | some chunk =>
          let u2 := if chunk.response.usageMetadata.totalTokenCount > 0
                    then some chunk.response.usageMetadata else u
          let p := streamLoop unmarshal rest fin u2
          (chunkEvents chunk ++ p.1, p.2)

/-- The full event sequence an opened GenerateStream emits: `start`, the
decoded events, then `done` carrying the tracked usage. -/
def GenerateStreamEvents (unmarshal : String → Option GenerateResponse)
    (model : String) (lines : List String) (fin : ReadEnd) : List StreamEvent :=
  let p := streamLoop unmarshal lines fin none
  { type := "start", model := model } :: (p.1 ++ [{ type := "done", usage := p.2 }])

/-! ## Spec-side characterizations used only in theorem statements -/

/-- Modelled from the spec's words ("the accumulated thought/content
text"): the concatenation of the texts of the events of one type, for
comparison with the loop accumulator. -/
def specConcatTexts (ty : String) : List StreamEvent → String
  | [] => ""
  | e :: rest => (if e.type = ty then e.text else "") ++ specConcatTexts ty rest

/-- Modelled from the spec's words ("the tool-call Parts in arrival order,
each retaining the thought-signature token it arrived with"): the tool-call
parts read off the event sequence directly. -/
def specToolParts : List StreamEvent → List Part
  | [] => []
  | e :: rest =>
    (if e.type = "tool_call"
     then [{ functionCall := e.toolCall, thoughtSignature := e.thoughtSignature }]
     else [])
    ++ specToolParts rest

theorem hasDU_app (l r : List Char) : hasDoubleUnder (l ++ '_' :: '_' :: r) = true := by
  induction l with
  | nil => simp [hasDoubleUnder]
  | cons a l ih =>
    cases l with
    | nil =>
      have ih2 : hasDoubleUnder ('_' :: '_' :: r) = true := by simpa using ih
      simp [hasDoubleUnder, ih2]
    | cons b l2 =>
      have ih2 : hasDoubleUnder (b :: (l2 ++ '_' :: '_' :: r)) = true := by simpa using ih
      simp [hasDoubleUnder, ih2]

theorem planmode_no_du : ∀ n ∈ planModeToolNameList, hasDoubleUnder n.data = false := by
  decide

/-- No MCP-exported name (sanitized server ++ "__" ++ sanitized tool) is in
the plan-mode allow-list: the separator's adjacent underscores appear in no
allow-listed name. -/
theorem mcp_name_not_planmode (s t : String) :
    IsPlanModeTool (sanitizeToolName s ++ "__" ++ sanitizeToolName t) = false := by
  by_contra h
  have htrue : IsPlanModeTool (sanitizeToolName s ++ "__" ++ sanitizeToolName t) = true := by
    cases hb : IsPlanModeTool (sanitizeToolName s ++ "__" ++ sanitizeToolName t) with
    | false => exact absurd hb h
    | true => rfl
  have hmem : (sanitizeToolName s ++ "__" ++ sanitizeToolName t) ∈ planModeToolNameList := by
    simpa [IsPlanModeTool] using htrue
  have hdata : (sanitizeToolName s ++ "__" ++ sanitizeToolName t).data
      = (sanitizeToolName s).data ++ '_' :: '_' :: (sanitizeToolName t).data := by
    rw [String.data_append, String.data_append]
    simp
  have hdu := planmode_no_du _ hmem
  rw [hdata] at hdu
  simp [hasDU_app] at hdu

/-! ## General helper lemmas -/

theorem str_empty_append (s : String) : "" ++ s = s := by
  cases s
  rfl

theorem str_append_ne_empty (d : String) : ("data: " ++ d) ≠ "" := by
  intro h
  have := congrArg String.data h
  rw [String.data_append] at this
  simp at this

theorem strStarts_append (p d : String) : strStarts (p ++ d) p = true := by
  rw [strStarts, String.data_append]
  exact List.isPrefixOf_iff_prefix.mpr (List.prefix_append _ _)

theorem str_drop_append (p d : String) :
    (⟨(p ++ d).data.drop p.data.length⟩ : String) = d := by
  rw [String.data_append, List.drop_left]

/-- The handleToolCalls loop produces exactly one response part per
FunctionCall-carrying input part, in order. -/
theorem buildToolResponses_eq_map (pm : Bool) (env : ToolEnv) (parts : List Part) :
    buildToolResponses pm env parts
      = (parts.filterMap Part.functionCall).map (toolRespPart pm env) := by
  induction parts with
  | nil => rfl
  | cons p rest ih => cases hp : p.functionCall <;> simp [buildToolResponses, hp, ih]

/-- The retry loop issues at most `attempt + fuel` requests. -/
theorem generateLoop_attempts_le {R : Type} (doReq : Nat → Except String HttpResp)
    (decode : String → Except String R) (um : String → Option ErrBody)
    (pd : String → Option Nat) :
    ∀ (fuel attempt : Nat) (ws : List Nat),
      (generateLoop doReq decode um pd attempt fuel ws).attempts ≤ attempt + fuel := by
  intro fuel
  induction fuel with
  | zero => intro a ws; simp [generateLoop]
  | succ f ih =>
    intro a ws
    simp only [generateLoop]
    cases doReq a with
    | error e => simp
    | ok resp =>
      simp only
      split
      · exact le_trans (ih (a + 1) _) (by omega)
      · split
        · simp
        · cases decode resp.body <;> simp

/-- The retry loop only ever extends the accumulated wait list. -/
theorem generateLoop_waits_prefix {R : Type} (doReq : Nat → Except String HttpResp)
    (decode : String → Except String R) (um : String → Option ErrBody)
    (pd : String → Option Nat) :
    ∀ (fuel attempt : Nat) (ws : List Nat),
      ∃ rest, (generateLoop doReq decode um pd attempt fuel ws).waits = ws ++ rest := by
  intro fuel
  induction fuel with
  | zero => intro a ws; exact ⟨[], by simp [generateLoop]⟩
  | succ f ih =>
    intro a ws
    simp only [generateLoop]
    cases doReq a with
    | error e => exact ⟨[], by simp⟩
    | ok resp =>
      simp only
      split
      · obtain ⟨r, hr⟩ := ih (a + 1) (ws ++ [parseRetryDelay um pd resp.body])
        exact ⟨[parseRetryDelay um pd resp.body] ++ r, by simp [hr]⟩
      · split
        · exact ⟨[], by simp⟩
        · cases decode resp.body <;> exact ⟨[], by simp⟩

/-- When no detail is a usable RetryInfo (wrong type, empty delay, or an
unparsable delay), the retry-delay scan falls through to one second. -/
theorem findRetryDelay_all_unparsable (pd : String → Option Nat) :
    ∀ ds : List RetryDetail,
      (∀ d ∈ ds, strEnds d.type "RetryInfo" = false ∨ d.retryDelay = ""
        ∨ pd d.retryDelay = none) →
      findRetryDelay pd ds = secondNs := by
  intro ds
  induction ds with
  | nil => intro _; rfl
  | cons d rest ih =>
    intro h
    have hd := h d (List.mem_cons_self _ _)
    have hrest := ih fun x hx => h x (List.mem_cons_of_mem _ hx)
    simp only [findRetryDelay]
    split
    · rename_i hcond
      rcases hd with hd | hd | hd
      · rw [hcond.1] at hd
        cases hd
      · exact absurd hd hcond.2
      · simp [hd, hrest]
    · exact hrest

/-- Characterization of doStream's accumulator on an error-free event
sequence: the concatenated content and thought texts and the tool-call
parts in arrival order. -/
theorem accum_go (events : List StreamEvent) :
    ∀ acc : StreamAccum, (∀ e ∈ events, e.type ≠ "error") → acc.errored = false →
      events.foldl stepStream acc =
        { fullText := acc.fullText ++ specConcatTexts "content" events,
          thoughtText := acc.thoughtText ++ specConcatTexts "thought" events,
          pendingToolParts := acc.pendingToolParts ++ specToolParts events,
          errored := false } := by
  induction events with
  | nil =>
    intro acc _ ha
    cases acc
    simp_all [specConcatTexts, specToolParts]
  | cons e rest ih =>
    intro acc hne ha
    have hne2 : ∀ x ∈ rest, x.type ≠ "error" := fun x hx => hne x (List.mem_cons_of_mem _ hx)
    have he : e.type ≠ "error" := hne e (List.mem_cons_self _ _)
    by_cases h1 : e.type = "thought"
    · have hstep : stepStream acc e =
          { fullText := acc.fullText, thoughtText := acc.thoughtText ++ e.text,
            pendingToolParts := acc.pendingToolParts, errored := false } := by
        simp [stepStream, ha, h1]
      have hih := ih ⟨acc.fullText, acc.thoughtText ++ e.text, acc.pendingToolParts, false⟩ hne2 rfl
      simp [List.foldl_cons, hstep, hih, specConcatTexts, specToolParts, h1,
        String.append_assoc]
    · by_cases h2 : e.type = "content"
      · have hstep : stepStream acc e =
            { fullText := acc.fullText ++ e.text, thoughtText := acc.thoughtText,
              pendingToolParts := acc.pendingToolParts, errored := false } := by
          simp [stepStream, ha, h1, h2]
        have hih := ih ⟨acc.fullText ++ e.text, acc.thoughtText, acc.pendingToolParts, false⟩ hne2 rfl
        simp [List.foldl_cons, hstep, hih, specConcatTexts, specToolParts, h1, h2,
          String.append_assoc]
      · by_cases h3 : e.type = "tool_call"
        · have hstep : stepStream acc e =
              { fullText := acc.fullText, thoughtText := acc.thoughtText,
                pendingToolParts := acc.pendingToolParts
                  ++ [{ functionCall := e.toolCall, thoughtSignature := e.thoughtSignature }],
                errored := false } := by
            simp [stepStream, ha, h1, h2, h3]
          have hih := ih ⟨acc.fullText, acc.thoughtText,
            acc.pendingToolParts ++ [{ functionCall := e.toolCall, thoughtSignature := e.thoughtSignature }], false⟩ hne2 rfl
          simp [List.foldl_cons, hstep, hih, specConcatTexts, specToolParts, h1, h2, h3,
            str_empty_append]
        · have hstep : stepStream acc e =
              { fullText := acc.fullText, thoughtText := acc.thoughtText,
                pendingToolParts := acc.pendingToolParts, errored := false } := by
            cases acc
            simp_all [stepStream]
          have hih := ih ⟨acc.fullText, acc.thoughtText, acc.pendingToolParts, false⟩ hne2 rfl
          simp [List.foldl_cons, hstep, hih, specConcatTexts, specToolParts, h1, h2, h3,
            str_empty_append]

/-! ## Claim theorems -/

/-- C1: for every model turn, handleToolCalls appends exactly one
user-role Content to History whose parts are exactly one function-response
Part per function-call Part of the turn, carrying the same names in the
same order; and the function-call Parts of the appended model Content are
exactly the pending tool-call parts the loop receives. -/
theorem c1_tool_responses_match_calls (env : ToolEnv) (c : ChatState)
    (toolCallParts : List Part) :
    (handleToolCalls env c toolCallParts).history
      = c.history ++ [⟨"user", buildToolResponses c.planMode env toolCallParts⟩]
    ∧ (buildToolResponses c.planMode env toolCallParts).length
        = (toolCallParts.filterMap Part.functionCall).length
    ∧ (buildToolResponses c.planMode env toolCallParts).map
          (fun p => Option.map FunctionResp.name p.functionResp)
        = (toolCallParts.filterMap Part.functionCall).map (fun tc => some tc.name)
    ∧ ∀ acc : StreamAccum,
        (buildModelParts acc).filterMap Part.functionCall
          = acc.pendingToolParts.filterMap Part.functionCall := by
  refine ⟨rfl, ?_, ?_, ?_⟩
  · simp [buildToolResponses_eq_map]
  · simp [buildToolResponses_eq_map, toolRespPart]
  · intro acc
    simp only [buildModelParts, List.filterMap_append]
    split <;> split <;> simp [Part.functionCall]

/-- C2 counterexample: sanitizing server "My Server!" turns the '!' into a
third underscore, so the exported name is NOT `My_Server__do_thing` as the
claim states, and CallTool on that claimed name finds no tool. -/
theorem c2_counterexample :
    sanitizeToolName "My Server!" ++ "__" ++ sanitizeToolName "do.thing" ≠ "My_Server__do_thing"
    ∧ CallToolRoute [("My Server!", [⟨"do.thing", "", ""⟩])] "My_Server__do_thing" = none :=
  ⟨by decide, rfl⟩

/-- C2 (amended): the exported declaration name for server "My Server!"
with tool "do.thing" is `My_Server___do_thing` (three underscores: the '!'
also sanitizes to '_'), and CallTool on that exported name dispatches to
server "My Server!" with original tool name "do.thing". -/
theorem c2_sanitized_roundtrip (d s : String) (sanitizeSchema : String → String) :
    GetAllTools sanitizeSchema [("My Server!", [⟨"do.thing", d, s⟩])]
      = [⟨"My_Server___do_thing", d, sanitizeSchema s⟩]
    ∧ CallToolRoute [("My Server!", [⟨"do.thing", d, s⟩])] "My_Server___do_thing"
      = some ("My Server!", "do.thing") :=
  ⟨rfl, rfl⟩

/-- C3 counterexample: when every attempt returns HTTP 429, Generate does
NOT terminate with "max retries exceeded" (that return is dead code); it
terminates with the generic status error of the final 429 response. -/
theorem c3_counterexample :
    (Generate (fun _ => .ok ⟨429, "quota"⟩) (fun _ => (.error "" : Except String Unit))
        (fun _ => none) (fun _ => none)).result
      ≠ Except.error "max retries exceeded"
    ∧ (Generate (fun _ => .ok ⟨429, "quota"⟩) (fun _ => (.error "" : Except String Unit))
        (fun _ => none) (fun _ => none)).result
      = Except.error "API error (status 429): quota" := by
  have heq : (Generate (fun _ => .ok ⟨429, "quota"⟩) (fun _ => (.error "" : Except String Unit))
      (fun _ => none) (fun _ => none)).result
      = Except.error "API error (status 429): quota" := rfl
  constructor
  · intro hc
    rw [heq] at hc
    injection hc with hstr
    exact (by decide : ¬("API error (status 429): quota" = "max retries exceeded")) hstr
  · exact heq

/-- C3 (amended): if every attempt of Generate (and of GenerateStream
before its stream opens) receives HTTP status 429, the operation
terminates after exactly 4 attempts with the error
"API error (status 429): body"; the "max retries exceeded" return is never
reached. -/
theorem c3_all_429_terminal_error {R : Type} (doReq : Nat → Except String HttpResp)
    (decode : String → Except String R) (um : String → Option ErrBody)
    (pd : String → Option Nat) (b : String)
    (h : ∀ i, doReq i = .ok ⟨429, b⟩) :
    (Generate doReq decode um pd).result = .error ("API error (status 429): " ++ b)
    ∧ (Generate doReq decode um pd).attempts = 4
    ∧ (GenerateStreamOpen doReq um pd).result = .error ("API error (status 429): " ++ b)
    ∧ (GenerateStreamOpen doReq um pd).attempts = 4 := by
  have hs : ("API error (status " ++ toString (429 : Nat) ++ "): " : String)
      = "API error (status 429): " := by decide
  refine ⟨?_, ?_, ?_, ?_⟩ <;>
    simp [Generate, GenerateStreamOpen, generateLoop, streamOpenLoop, h 0, h 1, h 2, h 3,
      maxRetries, hs, String.append_assoc]

/-- C3 witness: the all-429 hypothesis discharged at a concrete
transport. -/
theorem c3_witness :
    (Generate (fun _ => .ok ⟨429, "q"⟩) (fun _ => (.error "" : Except String Unit))
        (fun _ => none) (fun _ => none)).attempts = 4 :=
  (c3_all_429_terminal_error (fun _ => .ok ⟨429, "q"⟩)
    (fun _ => (.error "" : Except String Unit)) (fun _ => none) (fun _ => none) "q"
    (fun _ => rfl)).2.1

/-- C4: on HTTP 429 the transport waits the duration of the RetryInfo
detail's retryDelay (500000000 ns for "0.5s"), defaults to one second when
the body does not decode or no detail parses, issues at most 4 total
attempts, and the first retry's wait is exactly parseRetryDelay of the
first 429 body. -/
theorem c4_retry_delay_and_attempts :
    (∀ (um : String → Option ErrBody) (pd : String → Option Nat) (body t : String)
        (er : ErrBody), um body = some er → er.details = [⟨t, "0.5s"⟩] →
        strEnds t "RetryInfo" = true → pd "0.5s" = some 500000000 →
        parseRetryDelay um pd body = 500000000)
    ∧ (∀ (um : String → Option ErrBody) (pd : String → Option Nat) (body : String),
        um body = none → parseRetryDelay um pd body = secondNs)
    ∧ (∀ (um : String → Option ErrBody) (pd : String → Option Nat) (body : String)
        (er : ErrBody), um body = some er →
        (∀ d ∈ er.details, strEnds d.type "RetryInfo" = false ∨ d.retryDelay = ""
          ∨ pd d.retryDelay = none) →
        parseRetryDelay um pd body = secondNs)
    ∧ (∀ (R : Type) (doReq : Nat → Except String HttpResp) (decode : String → Except String R)
        (um : String → Option ErrBody) (pd : String → Option Nat),
        (Generate doReq decode um pd).attempts ≤ 4)
    ∧ (∀ (R : Type) (doReq : Nat → Except String HttpResp) (decode : String → Except String R)
        (um : String → Option ErrBody) (pd : String → Option Nat) (b : String),
        doReq 0 = .ok ⟨429, b⟩ →
        ∃ rest, (Generate doReq decode um pd).waits = parseRetryDelay um pd b :: rest) := by
  refine ⟨?_, ?_, ?_, ?_, ?_⟩
  · intro um pd body t er h1 h2 h3 h4
    simp [parseRetryDelay, h1, h2, findRetryDelay, h3, h4]
  · intro um pd body h
    simp [parseRetryDelay, h]
  · intro um pd body er h1 h2
    simp [parseRetryDelay, h1, findRetryDelay_all_unparsable pd er.details h2]
  · intro R doReq decode um pd
    simpa [Generate] using generateLoop_attempts_le doReq decode um pd 4 0 []
  · intro R doReq decode um pd b h0
    have hstep : Generate doReq decode um pd
        = generateLoop doReq decode um pd 1 3 [parseRetryDelay um pd b] := by
      simp [Generate, generateLoop, h0, maxRetries]
    obtain ⟨r, hr⟩ := generateLoop_waits_prefix doReq decode um pd 3 1 [parseRetryDelay um pd b]
    exact ⟨r, by rw [hstep, hr]; rfl⟩

/-- C4 witness: a RetryInfo detail carrying "0.5s" yields a 500000000 ns
wait, at a concrete unmarshaller and duration parser. -/
theorem c4_witness :
    parseRetryDelay
      (fun _ => some ⟨[⟨"type.googleapis.com/google.rpc.RetryInfo", "0.5s"⟩]⟩)
      (fun s => if s = "0.5s" then some 500000000 else none) "body" = 500000000 :=
  c4_retry_delay_and_attempts.1
    (fun _ => some ⟨[⟨"type.googleapis.com/google.rpc.RetryInfo", "0.5s"⟩]⟩)
    (fun s => if s = "0.5s" then some 500000000 else none) "body"
    "type.googleapis.com/google.rpc.RetryInfo"
    ⟨[⟨"type.googleapis.com/google.rpc.RetryInfo", "0.5s"⟩]⟩
    rfl rfl (by decide) (by decide)

/-- C5 counterexample: a streamed turn that completes without accumulating
any thought, text, or tool call appends NO model-role Content (the code
guards on len(modelParts) > 0), contradicting the claim's "appends one
model-role Content" for that turn. -/
theorem c5_counterexample :
    (finishStream {} [{ type := "done" }]).history = []
    ∧ (finishStream {} [{ type := "done" }]).history.length
        ≠ (({} : ChatState)).history.length + 1 := by
  constructor
  · rfl
  · simp [finishStream, accumStream, stepStream, buildModelParts]

/-- C5 (amended): on completion of a streamed model turn that accumulated
at least one Part (and saw no error event), the engine appends exactly one
model-role Content whose Parts are, in order: a thought Part with the
accumulated thought text (if any), a text Part with the accumulated
content text (if any), then the tool-call Parts in arrival order, each
retaining its thought-signature token; an entirely empty turn appends
nothing. -/
theorem c5_stream_completion_append (c : ChatState) (events : List StreamEvent)
    (hne : ∀ e ∈ events, e.type ≠ "error")
    (hsome : buildModelParts (accumStream events) ≠ []) :
    (finishStream c events).history
      = c.history ++
        [⟨"model",
          (if specConcatTexts "thought" events ≠ ""
           then [{ thought := true, text := specConcatTexts "thought" events }] else [])
          ++ (if specConcatTexts "content" events ≠ ""
              then [{ text := specConcatTexts "content" events }] else [])
          ++ specToolParts events⟩] := by
  have hacc : accumStream events =
      ⟨specConcatTexts "content" events, specConcatTexts "thought" events,
        specToolParts events, false⟩ := by
    simpa [accumStream, str_empty_append] using accum_go events {} hne rfl
  rw [hacc] at hsome
  simp only [finishStream, hacc, buildModelParts] at hsome ⊢
  split
  · split <;> simp_all
  · split <;> simp_all

/-- C5 witness: a turn with one thought delta, one content delta, and one
signed tool call appends the model Content with the three parts in
order. -/
theorem c5_witness :
    (finishStream {} [{ type := "thought", text := "t" }, { type := "content", text := "hi" },
        { type := "tool_call", toolCall := some ⟨"glob", []⟩, thoughtSignature := "sig" }]).history
      = [⟨"model",
          [{ thought := true, text := "t" }, { text := "hi" },
           { functionCall := some ⟨"glob", []⟩, thoughtSignature := "sig" }]⟩] := by
  have h := c5_stream_completion_append {}
    [{ type := "thought", text := "t" }, { type := "content", text := "hi" },
     { type := "tool_call", toolCall := some ⟨"glob", []⟩, thoughtSignature := "sig" }]
    (by decide) (by decide)
  simpa [specConcatTexts, specToolParts] using h

/-- C6: in plan mode, a tool call whose name is outside the allow-list is
not executed (its result is the fixed restriction error string, for every
execution environment), a function-response Part is still produced for it
and the loop continues with the remaining calls, and every MCP-exported
name (sanitized server ++ "__" ++ sanitized tool) is outside the
allow-list. -/
theorem c6_plan_mode_blocks :
    (∀ (env : ToolEnv) (name : String) (args : List (String × String)),
        IsPlanModeTool name = false →
        toolResult true env ⟨name, args⟩ = planModeBlockMsg name)
    ∧ (∀ (env : ToolEnv) (p : Part) (tc : FunctionCall) (rest : List Part),
        p.functionCall = some tc → IsPlanModeTool tc.name = false →
        buildToolResponses true env (p :: rest)
          = { functionResp :=
                some { name := tc.name, response := [("result", planModeBlockMsg tc.name)] } }
              :: buildToolResponses true env rest)
    ∧ (∀ s t : String,
        IsPlanModeTool (sanitizeToolName s ++ "__" ++ sanitizeToolName t) = false) := by
  refine ⟨?_, ?_, fun s t => mcp_name_not_planmode s t⟩
  · intro env name args h; simp [toolResult, h]
  · intro env p tc rest hp h
    simp [buildToolResponses, hp, toolRespPart, toolResult, h]

/-- C6 witness: the blocked write_file call at a concrete environment. -/
theorem c6_witness :
    IsPlanModeTool "write_file" = false
    ∧ toolResult true ⟨fun _ => .ok "", fun _ _ => .ok "", fun _ _ => .ok "", fun _ => ""⟩
        ⟨"write_file", []⟩ = planModeBlockMsg "write_file" :=
  ⟨by decide,
    c6_plan_mode_blocks.1 ⟨fun _ => .ok "", fun _ _ => .ok "", fun _ _ => .ok "", fun _ => ""⟩
      "write_file" [] (by decide)⟩

/-- C7: changing the plan-mode flag while History is non-empty appends
exactly one synthetic user-role text notice Content; enabling then
disabling appends exactly two; a toggle while History is empty appends
nothing. -/
theorem c7_plan_mode_notices :
    (∀ c : ChatState, c.history ≠ [] → c.planMode = false →
      (SetPlanMode c true).history = c.history ++ [planModeOnNotice])
    ∧ (∀ c : ChatState, c.history ≠ [] → c.planMode = true →
      (SetPlanMode c false).history = c.history ++ [planModeOffNotice])
    ∧ (∀ c : ChatState, c.history ≠ [] → c.planMode = false →
      (SetPlanMode (SetPlanMode c true) false).history
        = c.history ++ [planModeOnNotice, planModeOffNotice])
    ∧ (∀ (c : ChatState) (e : Bool), c.history = [] → (SetPlanMode c e).history = c.history)
    ∧ planModeOnNotice.role = "user" ∧ planModeOffNotice.role = "user"
    ∧ (∃ s, planModeOnNotice.parts = [{ text := s }])
    ∧ (∃ s, planModeOffNotice.parts = [{ text := s }]) := by
  refine ⟨?_, ?_, ?_, ?_, rfl, rfl, ⟨_, rfl⟩, ⟨_, rfl⟩⟩
  · intro c h hp
    simp [SetPlanMode, List.length_pos.mpr h, hp]
  · intro c h hp
    simp [SetPlanMode, List.length_pos.mpr h, hp]
  · intro c h hp
    simp [SetPlanMode, List.length_pos.mpr h, hp,
      List.length_pos.mpr (List.append_ne_nil_of_left_ne_nil h _)]
  · intro c e h
    simp [SetPlanMode, h]

/-- C7 witness: enable then disable on a one-turn History appends the two
notices. -/
theorem c7_witness :
    (SetPlanMode (SetPlanMode ⟨[], [⟨"user", [{ text := "hi" }]⟩], "", "", false, none⟩ true)
        false).history
      = [⟨"user", [{ text := "hi" }]⟩] ++ [planModeOnNotice, planModeOffNotice] :=
  c7_plan_mode_notices.2.2.1 ⟨[], [⟨"user", [{ text := "hi" }]⟩], "", "", false, none⟩
    (by decide) rfl

/-- C8: every opened stream's event sequence begins with `start` and
terminates with `done`; blank and non-`data:` lines produce no events; a
`data: [DONE]` line or end of stream ends decoding; an undecodable record
is skipped without aborting; and a mid-stream read error yields an `error`
event followed by the terminating `done`. -/
theorem c8_stream_event_shape :
    (∀ (um : String → Option GenerateResponse) (model : String) (lines : List String)
        (fin : ReadEnd), ∃ mid u,
        GenerateStreamEvents um model lines fin
          = { type := "start", model := model } :: (mid ++ [{ type := "done", usage := u }]))
    ∧ (∀ (um : String → Option GenerateResponse) (l : String) (rest : List String)
        (fin : ReadEnd) (u : Option UsageMetadata),
        goTrim l = "" ∨ strStarts (goTrim l) "data: " = false →
        streamLoop um (l :: rest) fin u = streamLoop um rest fin u)
    ∧ (∀ (um : String → Option GenerateResponse) (l : String) (rest : List String)
        (fin : ReadEnd) (u : Option UsageMetadata),
        goTrim l = "data: [DONE]" →
        streamLoop um (l :: rest) fin u = ([], u))
    ∧ (∀ (um : String → Option GenerateResponse) (l d : String) (rest : List String)
        (fin : ReadEnd) (u : Option UsageMetadata),
        goTrim l = "data: " ++ d → d ≠ "[DONE]" → um d = none →
        streamLoop um (l :: rest) fin u = streamLoop um rest fin u)
    ∧ (∀ (um : String → Option GenerateResponse) (u : Option UsageMetadata),
        streamLoop um [] .eof u = ([], u))
    ∧ (∀ (um : String → Option GenerateResponse) (m : String) (u : Option UsageMetadata),
        streamLoop um [] (.readErr m) u = ([{ type := "error", error := m }], u))
    ∧ (∀ (um : String → Option GenerateResponse) (model m : String),
        GenerateStreamEvents um model [] (.readErr m)
          = [{ type := "start", model := model }, { type := "error", error := m },
             { type := "done", usage := none }]) := by
  refine ⟨?_, ?_, ?_, ?_, fun um u => rfl, fun um m u => rfl, fun um model m => rfl⟩
  · intro um model lines fin
    exact ⟨(streamLoop um lines fin none).1, (streamLoop um lines fin none).2, rfl⟩
  · intro um l rest fin u h
    rcases h with h | h <;> simp [streamLoop, h]
  · intro um l rest fin u h
    have h2 : strStarts "data: [DONE]" "data: " = true := by decide
    have h3 : (⟨("data: [DONE]" : String).data.drop ("data: " : String).data.length⟩ : String)
        = "[DONE]" := by decide
    simp [streamLoop, h, h2, h3]
  · intro um l d rest fin u h1 hd hum
    have h2 : strStarts (goTrim l) "data: " = true := by rw [h1]; exact strStarts_append _ _
    have h3 : (⟨List.drop 6 (goTrim l).data⟩ : String) = d := by
      rw [h1]
      exact str_drop_append "data: " d
    have h4 : goTrim l ≠ "" := by rw [h1]; exact str_append_ne_empty d
    simp [streamLoop, h2, h3, h4, hd, hum]

/-- C8 witness: a non-`data:` line is skipped, and a stream whose reader
fails immediately emits exactly start, error, done. -/
theorem c8_witness :
    streamLoop (fun _ => none) ["event: ping"] ReadEnd.eof none = ([], none)
    ∧ GenerateStreamEvents (fun _ => none) "gemini" [] (ReadEnd.readErr "broken pipe")
      = [{ type := "start", model := "gemini" }, { type := "error", error := "broken pipe" },
         { type := "done", usage := none }] := by
  constructor
  · rw [c8_stream_event_shape.2.1 (fun _ => none) "event: ping" [] ReadEnd.eof none
      (Or.inr (by decide))]
    exact c8_stream_event_shape.2.2.2.2.1 (fun _ => none) none
  · exact c8_stream_event_shape.2.2.2.2.2.2 (fun _ => none) "gemini" "broken pipe"

/-- C9: submitting an ask-user answer with no rendezvous installed changes
no state; with one empty rendezvous pending, the waiter is blocked before
the submission and resumes with exactly the submitted string after it,
tearing the rendezvous down. -/
theorem c9_ask_user_rendezvous :
    (∀ (c : ChatState) (ans : String), c.askUserCh = none → SubmitAskUserResponse c ans = c)
    ∧ (∀ c : ChatState, c.askUserCh = some [] → askUserRecv c = none)
    ∧ (∀ (c : ChatState) (ans : String), c.askUserCh = some [] →
        askUserRecv (SubmitAskUserResponse c ans)
          = some (ans, { c with askUserCh := none })) := by
  refine ⟨?_, ?_, ?_⟩
  · intro c ans h; simp [SubmitAskUserResponse, h]
  · intro c h; simp [askUserRecv, h]
  · intro c ans h; simp [SubmitAskUserResponse, askUserRecv, h]

/-- C9 witness: the no-op and the exact-answer delivery at a concrete
state. -/
theorem c9_witness :
    SubmitAskUserResponse ⟨[], [], "", "", false, none⟩ "yes" = ⟨[], [], "", "", false, none⟩
    ∧ askUserRecv (SubmitAskUserResponse ⟨[], [], "", "", false, some []⟩ "yes")
      = some ("yes", ⟨[], [], "", "", false, none⟩) :=
  ⟨c9_ask_user_rendezvous.1 ⟨[], [], "", "", false, none⟩ "yes" rfl,
   c9_ask_user_rendezvous.2.2 ⟨[], [], "", "", false, some []⟩ "yes" rfl⟩

/-- The attachment loop fails whenever any attached file fails to read. -/
theorem readFileParts_error_of_mem (fs : String → Except String String)
    (files : List AttachedFile) (f : AttachedFile) (hf : f ∈ files) (e : String)
    (he : fs f.path = .error e) : ∃ msg, readFileParts fs files = .error msg := by
  induction files with
  | nil => cases hf
  | cons g rest ih =>
    rcases List.mem_cons.mp hf with hfg | hmem
    · subst hfg
      exact ⟨"failed to read file " ++ f.path ++ ": " ++ e, by simp [readFileParts, he]⟩
    · cases hg : fs g.path with
      | error e2 =>
        exact ⟨"failed to read file " ++ g.path ++ ": " ++ e2, by simp [readFileParts, hg]⟩
      | ok d =>
        obtain ⟨msg, hm⟩ := ih hmem
        exact ⟨msg, by simp [readFileParts, hg, hm]⟩

/-- C10: if reading any attached file fails, SendMessageWithFiles returns
an error, leaves the state (History and DisplayMessages included) exactly
unchanged, and starts no turn loop. -/
theorem c10_send_atomic_on_file_error (fs : String → Except String String) (c : ChatState)
    (text : String) (files : List AttachedFile) (f : AttachedFile) (e : String)
    (hf : f ∈ files) (he : fs f.path = .error e) :
    ∃ msg, SendMessageWithFiles fs c text files = ⟨c, some msg, false⟩ := by
  obtain ⟨msg, hm⟩ := readFileParts_error_of_mem fs files f hf e he
  exact ⟨msg, by simp [SendMessageWithFiles, hm]⟩

/-- C10 witness: a failing file system leaves a fresh state untouched. -/
theorem c10_witness :
    ∃ msg, SendMessageWithFiles (fun _ => .error "no such file") {} "hello"
        [⟨"/tmp/a.txt", "text/plain"⟩] = ⟨{}, some msg, false⟩ :=
  c10_send_atomic_on_file_error (fun _ => .error "no such file") {} "hello"
    [⟨"/tmp/a.txt", "text/plain"⟩] ⟨"/tmp/a.txt", "text/plain"⟩ "no such file"
    (by simp) rfl

end GmnGui
